import Mathlib

/-!
# Verification of codon-bias scoring models (`codonbias/scores.py`)

Shallow embedding of the scoring models in `src/codonbias/scores.py`:
the scalar/vector scoring dispatchers, the Effective Number of Codons
(ENC) model, the Frequency of Optimal Codons (FOP) model, the Relative
Synonymous Codon Usage (RSCU) model, the Relative Codon Bias Score
(RCBS) model, and the tRNA Adaptation Index (tAI) constructor.

Real-valued quantities are embedded as exact rationals (`ℚ`); Python's
IEEE-754 doubles are thereby idealised.  The counting engine
(`CodonCounter`, `NucleotideCounter`) and the numeric helpers
(`mean`, `geomean`, `reverse_complement`) live outside `src/` and are
modelled from the spec (section 6, "External interfaces"); every such
definition is marked `Modelled from the spec:` in its doc comment.
The genetic code is fixed to the NCBI standard code (id 1), the
default of every model and the code used by all claims.
-/

/-- Modelled from the spec: the NCBI standard genetic code (id 1),
mapping each of the 64 DNA codons to a one-letter amino-acid label,
with `*` marking the three STOP codons.  This is the codon→amino-acid
mapping the counting engine applies for `genetic_code=1`. -/
def standardCode : List (String × String) :=
  [("TTT", "F"), ("TTC", "F"), ("TTA", "L"), ("TTG", "L"),
   ("CTT", "L"), ("CTC", "L"), ("CTA", "L"), ("CTG", "L"),
   ("ATT", "I"), ("ATC", "I"), ("ATA", "I"), ("ATG", "M"),
   ("GTT", "V"), ("GTC", "V"), ("GTA", "V"), ("GTG", "V"),
   ("TCT", "S"), ("TCC", "S"), ("TCA", "S"), ("TCG", "S"),
   ("CCT", "P"), ("CCC", "P"), ("CCA", "P"), ("CCG", "P"),
   ("ACT", "T"), ("ACC", "T"), ("ACA", "T"), ("ACG", "T"),
   ("GCT", "A"), ("GCC", "A"), ("GCA", "A"), ("GCG", "A"),
   ("TAT", "Y"), ("TAC", "Y"), ("TAA", "*"), ("TAG", "*"),
   ("CAT", "H"), ("CAC", "H"), ("CAA", "Q"), ("CAG", "Q"),
   ("AAT", "N"), ("AAC", "N"), ("AAA", "K"), ("AAG", "K"),
   ("GAT", "D"), ("GAC", "D"), ("GAA", "E"), ("GAG", "E"),
   ("TGT", "C"), ("TGC", "C"), ("TGA", "*"), ("TGG", "W"),
   ("CGT", "R"), ("CGC", "R"), ("CGA", "R"), ("CGG", "R"),
   ("AGT", "S"), ("AGC", "S"), ("AGA", "R"), ("AGG", "R"),
   ("GGT", "G"), ("GGC", "G"), ("GGA", "G"), ("GGG", "G")]

/-- Modelled from the spec: the 61 sense codons of the standard code —
the full codon domain of every count/weight table when STOP codons are
excluded (`ignore_stop=True`, the setting of every model involved in
the claims; ENC and tAI force it). -/
def senseCodons : List (String × String) :=
  standardCode.filter (fun p => p.2 ≠ "*")

/-- The distinct amino-acid labels of the sense-codon table, in first
occurrence order (20 labels for the standard code). -/
def aaLabels : List String :=
  (senseCodons.map (fun p => p.2)).dedup

/-- Amino acid encoded by a (sense) codon. -/
def aaOf (c : String) : String :=
  ((standardCode.find? (fun p => p.1 = c)).map (fun p => p.2)).getD "X"

/-- The synonymous-codon group of an amino acid. -/
def aaGroup (a : String) : List String :=
  (senseCodons.filter (fun p => p.2 = a)).map (fun p => p.1)

/-- Degeneracy of an amino acid: the number of its synonymous codons. -/
def deg (a : String) : ℕ := (aaGroup a).length

/-- Split a character list into consecutive 3-character codons,
ignoring a trailing partial codon. -/
def chunk3 : List Char → List String
  | a :: b :: c :: rest => String.mk [a, b, c] :: chunk3 rest
  | _ => []

/-- Modelled from the spec: the counting engine's reading frame — a
sequence is partitioned into consecutive non-overlapping codons;
trailing partial codons are ignored. -/
def codonsOf (s : String) : List String := chunk3 s.data

/-- Modelled from the spec: the counting engine's raw count of one
codon in one query sequence. -/
def countCodon (s : String) (c : String) : ℕ := (codonsOf s).count c

/-- Modelled from the spec: the counting engine's raw count of one
codon over a collection of sequences (counts are summed). -/
def countCodonCorpus (corpus : List String) (c : String) : ℕ :=
  (corpus.map (fun s => countCodon s c)).sum

/- ### Effective Number of Codons (ENC)

Embedding of `EffectiveNumberOfCodons._calc_score` (scores.py
lines 376-405) for the default configuration `bg_correction=False`,
`genetic_code=1`, the configuration of claims C1, C2 and C6. -/

/-- Per-amino-acid total codon count `N` of the query
(`counts.groupby('aa').sum()`). -/
def encN (seq : String) (a : String) : ℕ :=
  ((aaGroup a).map (fun c => countCodon seq c)).sum

/-- Within-amino-acid observed codon frequency `P = counts / N`.
(For an unobserved amino acid Python yields NaN here; those rows are
removed by the `N > 1` filter below in both semantics.) -/
def encP (seq : String) (c : String) : ℚ :=
  (countCodon seq c : ℚ) / (encN seq (aaOf c) : ℚ)

/-- Modelled from the spec: the uniform-within-group background codon
composition `BCC_unif` used when `bg_correction=False` (Novembre
correction with a uniform base composition): each codon of a
`d`-fold amino acid gets probability `1/d`. -/
def BCCunif (c : String) : ℚ := 1 / (deg (aaOf c) : ℚ)

/-- Chi-square statistic of one amino acid:
`chi2 = N * ((P - BCC)**2 / BCC).groupby('aa').sum()`. -/
def encChi2 (seq : String) (a : String) : ℚ :=
  (encN seq a : ℚ) *
    ((aaGroup a).map
      (fun c => (encP seq c - BCCunif c) ^ 2 / BCCunif c)).sum

/-- Homogeneity statistic of one amino acid:
`F = (chi2 + N - deg) / (N - 1) / deg`. -/
def encF (seq : String) (a : String) : ℚ :=
  (encChi2 seq a + (encN seq a : ℚ) - (deg a : ℚ)) /
    ((encN seq a : ℚ) - 1) / (deg a : ℚ)

/-- The amino acids admitted to the class averages:
`F.loc[(N > 1) & (F['F'] > 1e-6) & np.isfinite(F['F'])]`.
(In exact rational arithmetic every `F` value with `N > 1` is finite,
so the finiteness conjunct is vacuous.) -/
def encValidAAs (seq : String) : List String :=
  aaLabels.filter (fun a => 1 < encN seq a ∧ 1 / 1000000 < encF seq a)

/-- Number of amino acids in one degeneracy class
(`deg_count = F.groupby('deg').size()`), taken over the full
amino-acid table. -/
def degCount (d : ℕ) : ℕ :=
  (aaLabels.filter (fun a => deg a = d)).length

/-- Class-average `F` over the admitted amino acids of one degeneracy
class (`groupby('deg').mean()`), `none` when the class has no admitted
observation (the `join(deg_count, how='right')` NaN). -/
def encClassMean (seq : String) (d : ℕ) : Option ℚ :=
  let l := ((encValidAAs seq).filter (fun a => deg a = d)).map (encF seq)
  if l.isEmpty then none else some (l.sum / (l.length : ℚ))

/-- The `fillna(1/deg)` stage: a class keeps its average when present
and falls back to `1/deg` when missing. -/
def fillStep (m : ℕ → Option ℚ) (d : ℕ) : ℚ :=
  (m d).getD (1 / (d : ℚ))

/-- The full missing-class policy of scores.py lines 398-402:
`fillna(1/deg)`, then — when the 3-fold class was missing — overwrite
it with the average of the (already filled) 2-fold and 4-fold values. -/
def fillClassF (m : ℕ → Option ℚ) (d : ℕ) : ℚ :=
  if d = 3 ∧ m 3 = none then (fillStep m 2 + fillStep m 4) / 2
  else fillStep m d

/-- The degeneracy classes of the standard code (index of `deg_count`). -/
def degClasses : List ℕ := (aaLabels.map deg).dedup

/-- `ENC = (F['deg_count'] / F['F']).sum()`. -/
def encRaw (seq : String) : ℚ :=
  (degClasses.map
    (fun d => (degCount d : ℚ) / fillClassF (encClassMean seq) d)).sum

/-- `EffectiveNumberOfCodons._calc_score` (default parameters):
`return min([len(P), ENC])`, where `len(P)` is the number of rows of
the full within-amino-acid frequency table, i.e. 61. -/
def encCalcScore (seq : String) : ℚ :=
  if (senseCodons.length : ℚ) ≤ encRaw seq then (senseCodons.length : ℚ)
  else encRaw seq

/-- Number of distinct amino acids with at least one codon occurrence
in the query (used to settle claim C2's bound). -/
def observedAACount (seq : String) : ℕ :=
  (aaLabels.filter (fun a => 0 < encN seq a)).length

/- ### Scoring abstraction: `ScalarScore.get_score` / `VectorScore.get_vector`

scores.py lines 23-55 and 72-104.  Both dispatchers recursively fan
out over non-string iterables (arbitrarily nested), then apply the
optional slice to the single sequence before delegating to the
model-specific `_calc_score` / `_calc_vector`. -/

/-- The input of `get_score` / `get_vector`: a single DNA sequence
(a Python `str`) or an arbitrarily nested iterable of ones. -/
inductive SeqInput where
  | str (s : String)
  | coll (l : List SeqInput)

/-- The output shape of `get_score` / `get_vector`: a single result,
or a nested array of results mirroring the input nesting. -/
inductive ScoreOut (α : Type) where
  | scalar (x : α)
  | arr (l : List (ScoreOut α))

/-- A Python slice object is embedded by its denotation on strings:
the function `s ↦ s[S]` it induces.  (`get_score` only ever uses a
slice by applying it to a sequence, so this captures exactly how the
code consumes it.) -/
def PySlice : Type := String → String

/-- The denotation of `slice(n)` (`s[:n]`): the first `n` characters. -/
def pySliceStop (n : ℕ) : PySlice := fun s => String.mk (s.data.take n)

/-- `ScalarScore.get_score` (scores.py lines 49-55), parametric in the
model's `_calc_score`: fan out over collections with the same slice,
then apply the slice to the single sequence before scoring. -/
def getScore {α : Type} (calcScore : String → α) (sl : Option PySlice) :
    SeqInput → ScoreOut α
  | .str s =>
    match sl with
    | some S => .scalar (calcScore (S s))
    | none => .scalar (calcScore s)
  | .coll l => .arr (l.attach.map (fun x => getScore calcScore sl x.1))
decreasing_by simp_wf; exact Nat.lt_add_left 1 (List.sizeOf_lt_of_mem x.2)

/-- `VectorScore.get_vector` (scores.py lines 92-98), parametric in
the model's `_calc_vector`; identical dispatch structure. -/
def getVector {α : Type} (calcVector : String → List α) (sl : Option PySlice) :
    SeqInput → ScoreOut (List α)
  | .str s =>
    match sl with
    | some S => .scalar (calcVector (S s))
    | none => .scalar (calcVector s)
  | .coll l => .arr (l.attach.map (fun x => getVector calcVector sl x.1))
decreasing_by simp_wf; exact Nat.lt_add_left 1 (List.sizeOf_lt_of_mem x.2)

/- ### Counting-engine tables shared by FOP / RSCU / RCBS -/

/-- Modelled from the spec: `CodonCounter.get_aa_table(normed=True,
pseudocount=pc)` for a corpus — the pseudocount-corrected codon
frequency normalised within each amino-acid group. -/
def aaTableNormedCorpus (corpus : List String) (pc : ℚ) (c : String) : ℚ :=
  ((countCodonCorpus corpus c : ℚ) + pc) /
    (((aaGroup (aaOf c)).map
      (fun c2 => (countCodonCorpus corpus c2 : ℚ) + pc)).sum)

/-- Modelled from the spec: `get_aa_table(normed=True, pseudocount=pc)`
for a single query sequence. -/
def aaTableNormed (seq : String) (pc : ℚ) (c : String) : ℚ :=
  aaTableNormedCorpus [seq] pc c

/-- Modelled from the spec: `get_codon_table(normed=True,
pseudocount=pc)` — the pseudocount-corrected codon frequency
normalised over the whole (stop-free) codon domain. -/
def codonTableNormed (seq : String) (pc : ℚ) (c : String) : ℚ :=
  ((countCodon seq c : ℚ) + pc) /
    ((senseCodons.map (fun p => (countCodon seq p.1 : ℚ) + pc)).sum)

/-- The raw counts of a query listed over the sense-codon table — the
observable content of the counter's `counts` attribute after
`counter.count(seq)`. -/
def countsList (seq : String) : List ℕ :=
  senseCodons.map (fun p => countCodon seq p.1)

/-- Modelled from the spec: the external numeric helper
`mean(values, weights)` — the weights-weighted arithmetic mean of the
values over the sense-codon domain. -/
def wmean (values : String → ℚ) (weights : String → ℚ) : ℚ :=
  ((senseCodons.map (fun p => values p.1 * weights p.1)).sum) /
    ((senseCodons.map (fun p => weights p.1)).sum)


/- ### Frequency of Optimal Codons (FOP)

Embedding of `FrequencyOfOptimalCodons.__init__` (scores.py
lines 135-147) and `_calc_score` (lines 149-152), `genetic_code=1`,
`ignore_stop=True`. -/

/-- Maximum of a list of rationals (the pandas `x.max()` reduction of
a non-empty group; `0` as the value of the degenerate empty case). -/
def listMax : List ℚ → ℚ
  | [] => 0
  | [a] => a
  | a :: b :: rest => max a (listMax (b :: rest))

/-- The group-normalised frequency ratio
`get_aa_table(normed=True, pseudocount).groupby('aa').apply(lambda x: x / x.max())`. -/
def fopRatio (refSeq : List String) (pc : ℚ) (c : String) : ℚ :=
  aaTableNormedCorpus refSeq pc c /
    listMax ((aaGroup (aaOf c)).map (aaTableNormedCorpus refSeq pc))

/-- The binarisation of scores.py lines 145-146, kept as the literal
two-step masked assignment: first every ratio `≥ thresh` becomes `1`,
then every (updated) value `< thresh` becomes `0`. -/
def fopWeight (refSeq : List String) (thresh pc : ℚ) (c : String) : ℚ :=
  let r := fopRatio refSeq pc c
  let r1 := if thresh ≤ r then 1 else r
  if r1 < thresh then 0 else r1

/-- `FrequencyOfOptimalCodons._calc_score`: the counts-weighted mean
of the binary weights. -/
def fopCalcScore (refSeq : List String) (thresh pc : ℚ) (seq : String) : ℚ :=
  wmean (fopWeight refSeq thresh pc) (fun c => (countCodon seq c : ℚ))

/- ### Relative Synonymous Codon Usage (RSCU)

Embedding of `RelativeSynonymousCodonUsage` (scores.py lines 202-262),
`genetic_code=1`, `ignore_stop=True`.  The model instance's observable
state is its hyperparameters, the frozen reference table, and the
stored counter content `self.counter.counts`: scores.py line 221 reads
`self.counter.counts` after `_calc_weights` has run
(`# counts have already been prepared in _calc_weights`), so
`CodonCounter.count(seq)` stores the query's counts on the counter
held by the instance. -/

structure RSCUModel where
  directional : Bool
  mean : String
  pseudocount : ℚ
  /-- The frozen reference table `self.reference` (per-amino-acid
  normalised frequency per codon). -/
  reference : String → ℚ
  /-- The content of `self.counter.counts`: `none` before any query
  has been counted, `some` the 61-vector of the last query's counts. -/
  counterCounts : Option (List ℕ)

/-- `RelativeSynonymousCodonUsage.__init__`: freeze the reference
table — per-amino-acid normalised frequencies of `ref_seq` when given,
of the empty sequence (i.e. the uniform within-group distribution)
otherwise.  No validation of `mean` happens here. -/
def rscuInit (refSeq : Option (List String)) (directional : Bool)
    (mean : String) (pc : ℚ) : RSCUModel :=
  { directional := directional
    mean := mean
    pseudocount := pc
    reference := fun c =>
      match refSeq with
      | none => aaTableNormedCorpus [""] pc c
      | some l => aaTableNormedCorpus l pc c
    counterCounts := none }

/-- `RelativeSynonymousCodonUsage._calc_weights` (lines 251-262): the
per-codon ratio `P / reference`, or `max(P/reference, reference/P)`
when `directional`; also returns the model as mutated by
`self.counter.count(seq)`. -/
def rscuCalcWeights (m : RSCUModel) (seq : String) :
    (String → ℚ) × RSCUModel :=
  let P := fun c => aaTableNormed seq m.pseudocount c
  let D := if m.directional
    then fun c => max (P c / m.reference c) (m.reference c / P c)
    else fun c => P c / m.reference c
  (D, { m with counterCounts := some (countsList seq) })

/-- The counts function read back from the counter state
(`self.counter.counts` as a map codon → count). -/
def countsOfState (st : Option (List ℕ)) (c : String) : ℚ :=
  match st with
  | none => 0
  | some l => (((senseCodons.map (fun p => p.1)).zip l).filter
      (fun p => p.1 = c)).foldr (fun p acc => (p.2 : ℚ) + acc) 0

/-- `RelativeSynonymousCodonUsage._calc_score` (lines 219-228),
parametric in the external helper composition
`geomeanLog D counts = geomean(np.log(D), counts)` (outside `src/`,
irrational-valued; its value is irrelevant to every claim).  Returns
the score (or the raised error) together with the mutated model. -/
def rscuCalcScore (geomeanLog : (String → ℚ) → (String → ℚ) → ℚ)
    (m : RSCUModel) (seq : String) : Except String ℚ × RSCUModel :=
  let Dm := rscuCalcWeights m seq
  let counts := countsOfState Dm.2.counterCounts
  (if m.mean = "geometric" then .ok (geomeanLog Dm.1 counts - 1)
   else if m.mean = "arithmetic" then .ok (wmean Dm.1 counts)
   else .error ("unknown mean: " ++ m.mean), Dm.2)

/- ### Relative Codon Bias Score (RCBS)

Embedding of `RelativeCodonBiasScore` (scores.py lines 696-749),
`genetic_code=1`, `ignore_stop=True`. -/

structure RCBSModel where
  directional : Bool
  mean : String
  pseudocount : ℚ
  /-- The content of `self.counter.counts` (see `RSCUModel`). -/
  counterCounts : Option (List ℕ)

/-- `RelativeCodonBiasScore.__init__`: store the hyperparameters; no
validation of `mean` happens here and no weights are fitted. -/
def rcbsInit (directional : Bool) (mean : String) (pc : ℚ) : RCBSModel :=
  { directional := directional
    mean := mean
    pseudocount := pc
    counterCounts := none }

/-- Modelled from the spec: the per-position nucleotide counts of
`RelativeCodonBiasScore._calc_BNC` — the base counts of the
phase-`i` subsequence `seq[i::3]`. -/
def rcbsBNC (seq : String) (i : ℕ) (b : Char) : ℕ :=
  ((seq.data.enum.filter (fun p => p.1 % 3 = i % 3)).map
    (fun p => p.2)).count b

/-- The unnormalised positional product of
`RelativeCodonBiasScore._calc_BCC` for one codon. -/
def rcbsBCCraw (seq : String) (c : String) : ℚ :=
  match c.data with
  | [c1, c2, c3] =>
    (rcbsBNC seq 0 c1 : ℚ) * (rcbsBNC seq 1 c2 : ℚ) * (rcbsBNC seq 2 c3 : ℚ)
  | _ => 0

/-- All 64 codons over `ACGT` (the `product('ACGT', 'ACGT', 'ACGT')`
of `_calc_BCC`). -/
def allCodons : List String := standardCode.map (fun p => p.1)

/-- `RelativeCodonBiasScore._calc_BCC`: the positional product
normalised over the full 64-codon domain. -/
def rcbsBCC (seq : String) (c : String) : ℚ :=
  rcbsBCCraw seq c / ((allCodons.map (rcbsBCCraw seq)).sum)

/-- `RelativeCodonBiasScore._calc_weights` (lines 720-732): observed
whole-domain codon frequencies over the per-sequence background, or
the directional maximum of the ratio and its reciprocal; also returns
the model as mutated by `self.counter.count(seq)`. -/
def rcbsCalcWeights (m : RCBSModel) (seq : String) :
    (String → ℚ) × RCBSModel :=
  let P := fun c => codonTableNormed seq m.pseudocount c
  let D := if m.directional
    then fun c => max (P c / rcbsBCC seq c) (rcbsBCC seq c / P c)
    else fun c => P c / rcbsBCC seq c
  (D, { m with counterCounts := some (countsList seq) })

/-- `RelativeCodonBiasScore._calc_score` (lines 704-713); same shape
as `rscuCalcScore`. -/
def rcbsCalcScore (geomeanLog : (String → ℚ) → (String → ℚ) → ℚ)
    (m : RCBSModel) (seq : String) : Except String ℚ × RCBSModel :=
  let Dm := rcbsCalcWeights m seq
  let counts := countsOfState Dm.2.counterCounts
  (if m.mean = "geometric" then .ok (geomeanLog Dm.1 counts - 1)
   else if m.mean = "arithmetic" then .ok (wmean Dm.1 counts)
   else .error ("unknown mean: " ++ m.mean), Dm.2)

/- ### tRNA Adaptation Index (tAI)

Embedding of `TrnaAdaptationIndex.__init__` and `_calc_weights`
(scores.py lines 477-530), `genetic_code=1`.  The GtRNAdb fetch
(`fetch_GCN_from_GtRNAdb`) and the packaged s-values CSV live outside
`src/`, so both enter as parameters (spec section 6: the fetch returns
a table of (anti-codon, gene-copy-number) pairs; the coefficients
resource is keyed by anti-codon base and codon base with a coupling
weight, a minimum degeneracy and a prokaryote flag).  The external
`scipy.stats.gmean` used for the zero-weight substitution also enters
as a parameter. -/

/-- One row of a tRNA gene-copy-number table: columns `anti_codon`,
`GCN`. -/
structure GCNRow where
  anti_codon : String
  GCN : ℕ
deriving DecidableEq

/-- One row of the s-values coefficients table: columns `anti`, `cod`,
`min_deg`, `weight`, `prokaryote`. -/
structure SValRow where
  anti : String
  cod : String
  min_deg : ℕ
  weight : ℚ
  prokaryote : Bool
deriving DecidableEq

/-- Modelled from the spec: the external helper
`reverse_complement` — complement each base and reverse. -/
def complementBase : Char → Char
  | 'A' => 'T'
  | 'T' => 'A'
  | 'C' => 'G'
  | 'G' => 'C'
  | b => b

/-- Modelled from the spec: `reverse_complement(sequence)`. -/
def reverseComplement (s : String) : String :=
  String.mk ((s.data.map complementBase).reverse)

/-- The merged and filtered weight contributions of
`TrnaAdaptationIndex._calc_weights` before the `groupby('codon')` sum:
for each codon, every (tRNA, s-value) pair matched on the codon's
first two positions (via reverse complement) and on the third-position
pair `(anti, cod)`, kept when the codon's degeneracy meets `min_deg`,
contributing `(1 - weight) * GCN`; codons with no surviving match are
absent from the grouped table, exactly as in the pandas merge. -/
def taiRawWeights (tGCN : List GCNRow) (svals : List SValRow) :
    List (String × ℚ) :=
  senseCodons.filterMap (fun p =>
    let contribs := (tGCN.filter
        (fun g => (reverseComplement g.anti_codon).take 2 = p.1.take 2)).flatMap
      (fun g => (svals.filter
          (fun s => s.anti = g.anti_codon.take 1 ∧ s.cod = p.1.takeRight 1
            ∧ s.min_deg ≤ deg p.2)).map
        (fun s => (1 - s.weight) * (g.GCN : ℚ)))
    if contribs.isEmpty then none else some (p.1, contribs.sum))

/-- Lines 526-528: normalise the grouped weights by their maximum,
then replace every weight equal to zero by `gmean` of the nonzero
weights (`gm` is the external `scipy.stats.gmean`). -/
def taiWeights (gm : List ℚ → ℚ) (tGCN : List GCNRow)
    (svals : List SValRow) : List (String × ℚ) :=
  let raw := taiRawWeights tGCN svals
  let mx := listMax (raw.map (fun p => p.2))
  let normed := raw.map (fun p => (p.1, p.2 / mx))
  let nz := (normed.map (fun p => p.2)).filter (fun w => w ≠ 0)
  normed.map (fun p => if p.2 = 0 then (p.1, gm nz) else p)

/-- The observable state of a constructed `TrnaAdaptationIndex`. -/
structure TAIModel where
  tGCN : List GCNRow
  weights : List (String × ℚ)

/-- Line 487: `tGCN['anti_codon'].str.upper().str.replace('U', 'T')`. -/
def normGCNTable (t : List GCNRow) : List GCNRow :=
  t.map (fun g => { g with anti_codon := (g.anti_codon.toUpper).replace "U" "T" })

/-- Lines 494-497: upper-case and `U`→`T` the s-values key columns,
then keep only the non-prokaryote rows unless `prokaryote` is set. -/
def normSValTable (prokaryote : Bool) (sv : List SValRow) : List SValRow :=
  let sv1 := sv.map
    (fun s => { s with
      anti := (s.anti.toUpper).replace "U" "T"
      cod := (s.cod.toUpper).replace "U" "T" })
  if prokaryote then sv1 else sv1.filter (fun s => ¬ s.prokaryote)

/-- `TrnaAdaptationIndex.__init__` (lines 477-499): when a `url` or a
`genome_id`+`domain` pair is present the copy numbers are fetched
(replacing any explicit `tGCN`); if no table results, the constructor
raises before any weight fitting; otherwise the tables are normalised
and the weights are fitted. -/
def trnaInit (fetch : Option String → Option String → Option String → List GCNRow)
    (svalsRaw : List SValRow) (gm : List ℚ → ℚ)
    (tGCN : Option (List GCNRow)) (url genomeId domain : Option String)
    (prokaryote : Bool) : Except String TAIModel :=
  let t0 := if url.isSome ∨ (genomeId.isSome ∧ domain.isSome)
    then some (fetch url domain genomeId) else tGCN
  match t0 with
  | none =>
    .error "must provide either: tGCN dataframe, GtRNAdb url, or GtRNAdb genome_id+domain"
  | some t =>
    let t1 := normGCNTable t
    let sv2 := normSValTable prokaryote svalsRaw
    .ok { tGCN := t1, weights := taiWeights gm t1 sv2 }

/-- C1: the Effective Number of Codons model constructed with default
parameters (standard genetic code, `bg_correction=False`) scores the
sequence `"ACGACGGAGGAG"` as exactly `35`, and the same sequence with
`slice=slice(6)` (its first six characters) as exactly `133/3` — the
exact rational value whose IEEE-754 double rendering is the claimed
`44.33333333333333`. -/
theorem enc_concrete_scenario :
    getScore encCalcScore none (.str "ACGACGGAGGAG") = ScoreOut.scalar 35 ∧
    getScore encCalcScore (some (pySliceStop 6)) (.str "ACGACGGAGGAG") =
      ScoreOut.scalar (133 / 3) := by
  have h1 : encCalcScore "ACGACGGAGGAG" = 35 := by with_unfolding_all decide
  have h2 : encCalcScore (pySliceStop 6 "ACGACGGAGGAG") = 133 / 3 := by
    with_unfolding_all decide
  exact ⟨by simp [getScore, h1], by simp [getScore, h2]⟩

/-- C2 counterexample: on the query `"ACGACGGAGGAG"` only 2 amino
acids are observed, yet the ENC score is 35, so the score is *not*
bounded by the number of distinct amino-acid groups observed — the
`min(len(P), ENC)` clamp of scores.py line 405 uses the 61-row codon
table `P`, not the observed amino acids. -/
theorem enc_exceeds_observed_aa_count :
    ¬ (encCalcScore "ACGACGGAGGAG" ≤ (observedAACount "ACGACGGAGGAG" : ℚ)) := by
  with_unfolding_all decide

/-- C2 amended: the ENC score is clamped to at most `len(P) = 61`,
the number of rows of the full sense-codon table (the value can and
does exceed the number of distinct amino acids present). -/
theorem enc_le_61 (seq : String) : encCalcScore seq ≤ 61 := by
  have h61 : (senseCodons.length : ℚ) = 61 := by with_unfolding_all decide
  unfold encCalcScore
  split
  · exact le_of_eq h61
  · next h => exact (le_of_not_le h).trans (le_of_eq h61)

/-- C4: for every model (any `_calc_score` / `_calc_vector`), every
single sequence and every slice, `get_score(s, slice=S)` equals
`get_score(s[S])`, and likewise for `get_vector`: the slice is applied
to the character sequence before any scoring. -/
theorem slicing_consistency {α : Type} (calcScore : String → α)
    (calcVector : String → List α) (S : PySlice) (s : String) :
    getScore calcScore (some S) (.str s) = getScore calcScore none (.str (S s)) ∧
    getVector calcVector (some S) (.str s) = getVector calcVector none (.str (S s)) := by
  constructor <;> simp [getScore, getVector]

/-- C5: for every model and every collection of sequences, scoring
the collection returns exactly the array of the element scores in
input order, with each element scored independently; likewise for
`get_vector`. -/
theorem fanout_consistency {α : Type} (calcScore : String → α)
    (calcVector : String → List α) (sl : Option PySlice) (l : List String) :
    getScore calcScore sl (.coll (l.map .str)) =
      .arr (l.map (fun s => getScore calcScore sl (.str s))) ∧
    getVector calcVector sl (.coll (l.map .str)) =
      .arr (l.map (fun s => getVector calcVector sl (.str s))) := by
  constructor <;> simp [getScore, getVector, List.map_attach, List.map_map]

/-- C3 counterexample: scoring is *not* state-free — a single
`get_score` call on a freshly constructed RSCU model changes the
instance, because `_calc_weights` runs `self.counter.count(seq)`,
which stores the query's counts on the counter that
`_calc_score` then reads back (scores.py line 221). -/
theorem rscu_score_mutates_state :
    (rscuCalcScore (fun _ _ => 0) (rscuInit none false "geometric" 1) "ACG").2 ≠
      rscuInit none false "geometric" 1 := by
  intro h
  have hc := congrArg RSCUModel.counterCounts h
  simp [rscuCalcScore, rscuCalcWeights, rscuInit] at hc

/-- C3 amended: a scoring call leaves the frozen weight table
(`reference`) and all hyperparameters unchanged, but it *does* mutate
the instance's counter, whose stored counts become exactly the last
query's counts (for both RSCU and RCBS). -/
theorem scoring_updates_only_counter
    (gm : (String → ℚ) → (String → ℚ) → ℚ) (m : RSCUModel) (m2 : RCBSModel)
    (seq : String) :
    ((rscuCalcScore gm m seq).2.directional = m.directional ∧
     (rscuCalcScore gm m seq).2.mean = m.mean ∧
     (rscuCalcScore gm m seq).2.pseudocount = m.pseudocount ∧
     (rscuCalcScore gm m seq).2.reference = m.reference ∧
     (rscuCalcScore gm m seq).2.counterCounts = some (countsList seq)) ∧
    ((rcbsCalcScore gm m2 seq).2.directional = m2.directional ∧
     (rcbsCalcScore gm m2 seq).2.mean = m2.mean ∧
     (rcbsCalcScore gm m2 seq).2.pseudocount = m2.pseudocount ∧
     (rcbsCalcScore gm m2 seq).2.counterCounts = some (countsList seq)) := by
  refine ⟨⟨rfl, rfl, rfl, rfl, rfl⟩, ⟨rfl, rfl, rfl, rfl⟩⟩

/-- C6: in ENC scoring, a degeneracy class with no valid
observations (no amino acid surviving the `N > 1`, finite-`F`,
`F > 1e-6` filter of `encValidAAs`, i.e. `encClassMean seq d = none`)
receives class value `1/d` — except the 3-fold class, which is instead
the average of the (already filled) 2-fold and 4-fold class values.
The fill is total (`fillClassF` is a total function feeding
`encCalcScore`), so such gaps never raise an error. -/
theorem enc_missing_class_fallback (seq : String) (d : ℕ)
    (h : encClassMean seq d = none) :
    fillClassF (encClassMean seq) d =
      if d = 3 then (fillStep (encClassMean seq) 2 + fillStep (encClassMean seq) 4) / 2
      else 1 / (d : ℚ) := by
  by_cases hd : d = 3
  · subst hd
    simp [fillClassF, h]
  · simp [fillClassF, hd, fillStep, h]

/-- C6 witness: on `"ACGACGGAGGAG"` the 6-fold class has no valid
observation and gets `1/6`, and the missing 3-fold class gets the
2-fold/4-fold average. -/
theorem enc_missing_class_fallback_witness :
    fillClassF (encClassMean "ACGACGGAGGAG") 6 = 1 / 6 ∧
    fillClassF (encClassMean "ACGACGGAGGAG") 3 =
      (fillStep (encClassMean "ACGACGGAGGAG") 2 +
        fillStep (encClassMean "ACGACGGAGGAG") 4) / 2 := by
  have h6 := enc_missing_class_fallback "ACGACGGAGGAG" 6
    (by with_unfolding_all decide)
  have h3 := enc_missing_class_fallback "ACGACGGAGGAG" 3
    (by with_unfolding_all decide)
  refine ⟨?_, ?_⟩
  · simpa using h6
  · simpa using h3

/-- C7: for RSCU and RCBS, any `mean` other than `"geometric"` or
`"arithmetic"` is accepted silently at construction (the constructor
stores it unvalidated) and every `get_score` call then raises
`unknown mean: <mean>` — never a silent default. -/
theorem unknown_mean_raises (mn : String)
    (hg : mn ≠ "geometric") (ha : mn ≠ "arithmetic")
    (gm : (String → ℚ) → (String → ℚ) → ℚ)
    (refSeq : Option (List String)) (dir : Bool) (pc : ℚ) (seq : String) :
    (rscuInit refSeq dir mn pc).mean = mn ∧
    (rscuCalcScore gm (rscuInit refSeq dir mn pc) seq).1 =
      .error ("unknown mean: " ++ mn) ∧
    (rcbsInit dir mn pc).mean = mn ∧
    (rcbsCalcScore gm (rcbsInit dir mn pc) seq).1 =
      .error ("unknown mean: " ++ mn) := by
  refine ⟨rfl, ?_, rfl, ?_⟩ <;>
    simp [rscuCalcScore, rcbsCalcScore, rscuInit, rcbsInit, hg, ha]

/-- C7 witness: `mean="harmonic"` raises at score time. -/
theorem unknown_mean_raises_witness :
    (rscuCalcScore (fun _ _ => 0) (rscuInit none false "harmonic" 1) "ACG").1 =
      .error ("unknown mean: " ++ "harmonic") :=
  (unknown_mean_raises "harmonic" (by decide) (by decide) (fun _ _ => 0)
    none false 1 "ACG").2.1

/-- C8: constructing `TrnaAdaptationIndex` with `tGCN=None`,
`url=None` and no `genome_id`+`domain` pair raises the configuration
error before any weight fitting (the `.error` branch precedes
`taiWeights`), while supplying any one of the three sources yields a
constructed model with fitted weights. -/
theorem tai_construction_requires_gcn_source
    (fetch : Option String → Option String → Option String → List GCNRow)
    (svalsRaw : List SValRow) (gm : List ℚ → ℚ) (pk : Bool) :
    (trnaInit fetch svalsRaw gm none none none none pk =
      .error "must provide either: tGCN dataframe, GtRNAdb url, or GtRNAdb genome_id+domain") ∧
    (∀ t : List GCNRow, trnaInit fetch svalsRaw gm (some t) none none none pk =
      .ok { tGCN := normGCNTable t
            weights := taiWeights gm (normGCNTable t) (normSValTable pk svalsRaw) }) ∧
    (∀ (u : String) (t : Option (List GCNRow)),
      trnaInit fetch svalsRaw gm t (some u) none none pk =
        .ok { tGCN := normGCNTable (fetch (some u) none none)
              weights := taiWeights gm (normGCNTable (fetch (some u) none none))
                (normSValTable pk svalsRaw) }) ∧
    (∀ (g d : String) (t : Option (List GCNRow)),
      trnaInit fetch svalsRaw gm t none (some g) (some d) pk =
        .ok { tGCN := normGCNTable (fetch none (some d) (some g))
              weights := taiWeights gm (normGCNTable (fetch none (some d) (some g)))
                (normSValTable pk svalsRaw) }) :=
  ⟨rfl, fun _ => rfl, fun _ _ => rfl, fun _ _ _ => rfl⟩

theorem aaTableNormedCorpus_nonneg (corpus : List String) (pc : ℚ)
    (c : String) (hpc : 0 ≤ pc) : 0 ≤ aaTableNormedCorpus corpus pc c := by
  unfold aaTableNormedCorpus
  apply div_nonneg
  · positivity
  · apply List.sum_nonneg
    intro x hx
    obtain ⟨c2, -, rfl⟩ := List.mem_map.mp hx
    positivity

theorem codonTableNormed_nonneg (seq : String) (pc : ℚ) (c : String)
    (hpc : 0 ≤ pc) : 0 ≤ codonTableNormed seq pc c := by
  unfold codonTableNormed
  apply div_nonneg
  · positivity
  · apply List.sum_nonneg
    intro x hx
    obtain ⟨p, -, rfl⟩ := List.mem_map.mp hx
    positivity

theorem rcbsBCC_nonneg (seq : String) (c : String) : 0 ≤ rcbsBCC seq c := by
  have hraw : ∀ c2 : String, 0 ≤ rcbsBCCraw seq c2 := by
    intro c2
    unfold rcbsBCCraw
    split
    · positivity
    · exact le_refl 0
  apply div_nonneg (hraw c)
  apply List.sum_nonneg
  intro x hx
  obtain ⟨c2, -, rfl⟩ := List.mem_map.mp hx
  exact hraw c2

theorem abs_max_ratio_dev (p b : ℚ) (hp : 0 ≤ p) (hb : 0 ≤ b) :
    |p / b - 1| ≤ |max (p / b) (b / p) - 1| := by
  rcases eq_or_lt_of_le hb with hb0 | hb0
  · simp [← hb0]
  rcases eq_or_lt_of_le hp with hp0 | hp0
  · simp [← hp0]
  have hr : 0 < p / b := div_pos hp0 hb0
  have hbp : b / p = (p / b)⁻¹ := by rw [inv_div]
  rw [hbp]
  set r := p / b with hrdef
  rcases le_or_lt 1 r with h1 | h1
  · have hinv : r⁻¹ ≤ r := le_trans (inv_le_one_of_one_le₀ h1) h1
    rw [max_eq_left hinv]
  · have hinv1 : 1 ≤ r⁻¹ := (one_le_inv₀ hr).mpr (le_of_lt h1)
    have hle : r ≤ r⁻¹ := le_trans (le_of_lt h1) hinv1
    rw [max_eq_right hle]
    rw [abs_of_nonpos (by linarith), abs_of_nonneg (by linarith)]
    have hrr : r * r⁻¹ = 1 := mul_inv_cancel₀ (ne_of_gt hr)
    nlinarith [sq_nonneg (1 - r)]

/-- C9: for RSCU and RCBS, on the same query and reference, the
directional weight deviates from 1 at least as much (in absolute
value) as the non-directional ratio: `|max(r, 1/r) - 1| ≥ |r - 1|`. -/
theorem directional_amplification
    (refSeq : Option (List String)) (mn : String) (pc : ℚ) (hpc : 0 ≤ pc)
    (seq c : String) :
    |(rscuCalcWeights (rscuInit refSeq false mn pc) seq).1 c - 1| ≤
      |(rscuCalcWeights (rscuInit refSeq true mn pc) seq).1 c - 1| ∧
    |(rcbsCalcWeights (rcbsInit false mn pc) seq).1 c - 1| ≤
      |(rcbsCalcWeights (rcbsInit true mn pc) seq).1 c - 1| := by
  constructor
  · have hp : 0 ≤ aaTableNormed seq pc c :=
      aaTableNormedCorpus_nonneg _ _ _ hpc
    have hb : 0 ≤ (rscuInit refSeq true mn pc).reference c := by
      cases refSeq <;> exact aaTableNormedCorpus_nonneg _ _ _ hpc
    simpa [rscuCalcWeights, rscuInit] using
      abs_max_ratio_dev (aaTableNormed seq pc c)
        ((rscuInit refSeq true mn pc).reference c) hp hb
  · have hp : 0 ≤ codonTableNormed seq pc c :=
      codonTableNormed_nonneg _ _ _ hpc
    have hb : 0 ≤ rcbsBCC seq c := rcbsBCC_nonneg seq c
    simpa [rcbsCalcWeights, rcbsInit] using
      abs_max_ratio_dev (codonTableNormed seq pc c) (rcbsBCC seq c) hp hb

/-- C9 witness: the directional-amplification bound at a concrete
model, query and codon. -/
theorem directional_amplification_witness :
    |(rscuCalcWeights (rscuInit none false "geometric" 1) "ACG").1 "ACG" - 1| ≤
      |(rscuCalcWeights (rscuInit none true "geometric" 1) "ACG").1 "ACG" - 1| ∧
    |(rcbsCalcWeights (rcbsInit false "geometric" 1) "ACG").1 "ACG" - 1| ≤
      |(rcbsCalcWeights (rcbsInit true "geometric" 1) "ACG").1 "ACG" - 1| :=
  directional_amplification none "geometric" 1 (by norm_num) "ACG" "ACG"

theorem listMax_mem : ∀ l : List ℚ, l ≠ [] → listMax l ∈ l
  | [a], _ => by simp [listMax]
  | a :: b :: rest, _ => by
    rw [listMax]
    rcases max_choice a (listMax (b :: rest)) with h | h <;> rw [h]
    · exact List.mem_cons_self a _
    · exact List.mem_cons_of_mem a (listMax_mem (b :: rest) (by simp))

theorem le_listMax : ∀ l : List ℚ, ∀ x ∈ l, x ≤ listMax l
  | [a], x, hx => by
    simp at hx
    simp [listMax, hx]
  | a :: b :: rest, x, hx => by
    rw [listMax]
    rcases List.mem_cons.mp hx with h | h
    · exact h ▸ le_max_left _ _
    · exact le_trans (le_listMax (b :: rest) x h) (le_max_right _ _)

theorem aaOf_mem_group : ∀ a ∈ aaLabels, ∀ c ∈ aaGroup a, aaOf c = a := by
  with_unfolding_all decide

theorem aaTableNormedCorpus_pos (corpus : List String) (pc : ℚ)
    (c : String) (hpc : 0 < pc) (hc : (aaGroup (aaOf c)).length ≠ 0) :
    0 < aaTableNormedCorpus corpus pc c := by
  unfold aaTableNormedCorpus
  apply div_pos
  · positivity
  · apply List.sum_pos
    · intro x hx
      obtain ⟨c2, -, rfl⟩ := List.mem_map.mp hx
      positivity
    · simp
      intro h
      exact hc (by simp [h])

theorem aaGroup_nonempty : ∀ a ∈ aaLabels, aaGroup a ≠ [] := by
  with_unfolding_all decide

/-- C10: after FOP construction with any reference corpus, positive
pseudocount and threshold `thresh ≤ 1`, every fitted weight is exactly
0 or exactly 1, and every amino-acid group contains a codon of weight
1 (its maximum-frequency codon has max-normalised ratio exactly
`1 ≥ thresh`). -/
theorem fop_weights_binary (refSeq : List String) (thresh pc : ℚ)
    (hth : thresh ≤ 1) (hpc : 0 < pc) :
    (∀ c : String, fopWeight refSeq thresh pc c = 0 ∨
      fopWeight refSeq thresh pc c = 1) ∧
    (∀ a ∈ aaLabels, ∃ c ∈ aaGroup a, fopWeight refSeq thresh pc c = 1) := by
  constructor
  · intro c
    unfold fopWeight
    by_cases h : thresh ≤ fopRatio refSeq pc c
    · right
      simp [h]
      linarith
    · left
      simp [h]
  · intro a ha
    have hgne : aaGroup a ≠ [] := aaGroup_nonempty a ha
    have hne : (aaGroup a).map (aaTableNormedCorpus refSeq pc) ≠ [] := by
      simpa using hgne
    obtain ⟨cm, hcm, hcmax⟩ := List.mem_map.mp
      (listMax_mem ((aaGroup a).map (aaTableNormedCorpus refSeq pc)) hne)
    refine ⟨cm, hcm, ?_⟩
    have haa : aaOf cm = a := aaOf_mem_group a ha cm hcm
    have hpos : 0 < aaTableNormedCorpus refSeq pc cm := by
      apply aaTableNormedCorpus_pos refSeq pc cm hpc
      rw [haa]
      simpa [List.length_eq_zero] using hgne
    have hmaxpos : 0 < listMax ((aaGroup a).map (aaTableNormedCorpus refSeq pc)) :=
      lt_of_lt_of_le hpos (hcmax ▸ le_refl _) |>.trans_le
        (le_listMax _ _ (List.mem_map.mpr ⟨cm, hcm, rfl⟩))
    have hratio : fopRatio refSeq pc cm = 1 := by
      unfold fopRatio
      rw [haa, hcmax]
      exact div_self (ne_of_gt hmaxpos)
    unfold fopWeight
    rw [hratio]
    simp [hth]
/-- C10 witness: the binarisation facts at the concrete corpus
`["ACGACG"]` with the default threshold `0.95` and pseudocount 1,
instantiated at the codon `"ACG"` and the amino-acid group of
threonine. -/
theorem fop_weights_binary_witness :
    (fopWeight ["ACGACG"] (95 / 100) 1 "ACG" = 0 ∨
      fopWeight ["ACGACG"] (95 / 100) 1 "ACG" = 1) ∧
    (∃ c ∈ aaGroup "T", fopWeight ["ACGACG"] (95 / 100) 1 c = 1) :=
  ⟨(fop_weights_binary ["ACGACG"] (95 / 100) 1 (by norm_num) (by norm_num)).1 "ACG",
   (fop_weights_binary ["ACGACG"] (95 / 100) 1 (by norm_num) (by norm_num)).2 "T"
     (by with_unfolding_all decide)⟩
